import Mathlib

/-!
Shallow embedding of flang's `lib/evaluate/host.h` (the Fortran-kind to
host-hardware-type correspondence bridge) and proofs about it.

The C++ source is a compile-time template metaprogram: `HostTypeHelper<T>`
maps a Fortran intrinsic type `Type<category, KIND>` to a host hardware
type (or `UnsupportedType`), `FortranTypeHelper<HOST_T>` inverts that map
by scanning `AllIntrinsicTypes`, `BiggerOrSameHostTypeHelper<T>` walks the
`NextBiggerReal` widening chain, and `CastHostToFortran` /
`CastFortranToHost` reinterpret scalar byte patterns (decomposing complex
values piecewise when the scalar and host sizes disagree).

The embedding reifies the template machinery as ordinary functions:
a `HostProfile` carries the hardware facts the preprocessor and
`std::numeric_limits` queries consult (presence of `__int128`, sizes and
IEEE-754 conformance of `float` / `double` / `long double`), a Fortran
type is a `(category, kind)` pair, and host types become the inductive
`HostTypeRep` whose constructors stand for the distinct C++ types that
can appear on the right-hand side of a `HostTypeHelper` specialization.
-/

namespace Fortran.evaluate.host

/-- Fortran intrinsic type categories, mirroring `TypeCategory` from
`type.h` (an external collaborator of `host.h`). -/
inductive TypeCategory
  | Integer
  | Real
  | Complex
  | Character
  | Logical
  deriving DecidableEq, Repr

/-- A Fortran intrinsic type `Type<category, KIND>`: a category plus a
kind (byte width) parameter. -/
structure FType where
  category : TypeCategory
  kind : Nat
  deriving DecidableEq, Repr

/-- Hardware/ABI facts of the compiler host that the `#if` blocks and
`std::conditional_t` conditions in `host.h` consult: availability of
`__int128`, and size / IEEE-754 layout data of the native floating
types. -/
structure HostProfile where
  hasInt128 : Bool
  floatSize : Nat
  floatIsIec559 : Bool
  doubleSize : Nat
  doubleIsIec559 : Bool
  longDoubleSize : Nat
  longDoubleDigits : Nat
  longDoubleMaxExponent : Nat
  deriving DecidableEq, Repr

/-- The distinct C++ types that can appear as the `Type` member of a
`HostTypeHelper` specialization.  `unsupported` is `UnsupportedType`;
`charScalar k` is `Scalar<Type<TypeCategory::Character, k>>` (a character
kind is mapped to its own source scalar encoding); `complex r` is
`std::complex<R>` for the host real type `r`. -/
inductive HostTypeRep
  | int8
  | int16
  | int32
  | int64
  | int128
  | float
  | double
  | longDouble
  | complex (part : HostTypeRep)
  | uint8
  | charScalar (kind : Nat)
  | unsupported
  deriving DecidableEq, Repr

/-- Condition of the `#if` guard for `HostTypeHelper<Type<Integer, 16>>`:
the compiler provides `__int128_t`. -/
def Int128Cond (p : HostProfile) : Bool := p.hasInt128

/-- Condition for `HostTypeHelper<Type<Real, 4>>`:
`sizeof(float) == 4 && std::numeric_limits<float>::is_iec559`. -/
def Real4Cond (p : HostProfile) : Bool :=
  (p.floatSize == 4) && p.floatIsIec559

/-- Condition for `HostTypeHelper<Type<Real, 8>>`:
`sizeof(double) == 8 && std::numeric_limits<double>::is_iec559`. -/
def Real8Cond (p : HostProfile) : Bool :=
  (p.doubleSize == 8) && p.doubleIsIec559

/-- Condition for `HostTypeHelper<Type<Real, 10>>` (x87 80-bit profile):
`sizeof(long double) >= 10 && digits == 64 && max_exponent == 16384`. -/
def Real10Cond (p : HostProfile) : Bool :=
  decide (10 ≤ p.longDoubleSize) && (p.longDoubleDigits == 64) &&
    (p.longDoubleMaxExponent == 16384)

/-- Condition for `HostTypeHelper<Type<Real, 16>>` (IEEE-754 quad):
`sizeof(long double) == 16 && digits == 113 && max_exponent == 16384`. -/
def Real16Cond (p : HostProfile) : Bool :=
  (p.longDoubleSize == 16) && (p.longDoubleDigits == 113) &&
    (p.longDoubleMaxExponent == 16384)

/-- The `HostTypeHelper` specializations for every non-Complex category,
parameterized by the five hardware condition bits.  Kinds not covered by
any specialization fall through to the primary template, whose `Type` is
`UnsupportedType`. -/
def HostTypeNonComplex (int128c real4c real8c real10c real16c : Bool) :
    TypeCategory → Nat → HostTypeRep
  | .Integer, 1 => .int8
  | .Integer, 2 => .int16
  | .Integer, 4 => .int32
  | .Integer, 8 => .int64
  | .Integer, 16 => if int128c then .int128 else .unsupported
  | .Real, 4 => if real4c then .float else .unsupported
  | .Real, 8 => if real8c then .double else .unsupported
  | .Real, 10 => if real10c then .longDouble else .unsupported
  | .Real, 16 => if real16c then .longDouble else .unsupported
  | .Logical, k => if k ≤ 8 then .uint8 else .unsupported
  | .Character, k => .charScalar k
  | _, _ => .unsupported

/-- `HostTypeHelper<T>::Type` over condition bits.  The Complex
specialization is `std::conditional_t<HostTypeExists<RealT>(),
std::complex<HostType<RealT>>, UnsupportedType>` where `RealT` is the
Real type of the same kind. -/
def HostTypeCore (int128c real4c real8c real10c real16c : Bool)
    (t : FType) : HostTypeRep :=
  match t with
  | ⟨.Complex, k⟩ =>
      match HostTypeNonComplex int128c real4c real8c real10c real16c .Real k with
      | .unsupported => .unsupported
      | r => .complex r
  | ⟨c, k⟩ => HostTypeNonComplex int128c real4c real8c real10c real16c c k

/-- `HostType<FTN_T>`: the host hardware type mapped to a Fortran
intrinsic type on the host described by `p` (or `unsupported`). -/
def HostType (p : HostProfile) (t : FType) : HostTypeRep :=
  HostTypeCore (Int128Cond p) (Real4Cond p) (Real8Cond p) (Real10Cond p)
    (Real16Cond p) t

/-- `HostTypeExists<T>()` over condition bits. -/
def HostTypeExistsCore (int128c real4c real8c real10c real16c : Bool)
    (t : FType) : Bool :=
  HostTypeCore int128c real4c real8c real10c real16c t != .unsupported

/-- `HostTypeExists<FTN_T>()`: true iff a host hardware type maps to the
Fortran intrinsic type (single-type instance of the C++ variadic
conjunction). -/
def HostTypeExists (p : HostProfile) (t : FType) : Bool :=
  HostType p t != .unsupported

/-- Modelled from the spec: the exhaustive list of Fortran intrinsic
types `AllIntrinsicTypes` comes from `type.h`, an external collaborator
that is not part of this core; the spec fixes the categories
{Integer, Real, Complex, Logical, Character} and the kinds each
`HostTypeHelper` specialization covers.  The order (Integer, Real,
Complex, Character, Logical kinds, each in increasing kind order) is the
concatenation order of the per-category tuples used by
`FortranTypeHelper`'s index scan. -/
def AllIntrinsicTypes : List FType :=
  [⟨.Integer, 1⟩, ⟨.Integer, 2⟩, ⟨.Integer, 4⟩, ⟨.Integer, 8⟩,
   ⟨.Integer, 16⟩,
   ⟨.Real, 2⟩, ⟨.Real, 3⟩, ⟨.Real, 4⟩, ⟨.Real, 8⟩, ⟨.Real, 10⟩,
   ⟨.Real, 16⟩,
   ⟨.Complex, 2⟩, ⟨.Complex, 3⟩, ⟨.Complex, 4⟩, ⟨.Complex, 8⟩,
   ⟨.Complex, 10⟩, ⟨.Complex, 16⟩,
   ⟨.Character, 1⟩, ⟨.Character, 2⟩, ⟨.Character, 4⟩,
   ⟨.Logical, 1⟩, ⟨.Logical, 2⟩, ⟨.Logical, 4⟩, ⟨.Logical, 8⟩]

/-- `FortranTypeHelper<HOST_T>::Type` over condition bits:
`common::TypeIndex` finds the index of the first entry of
`AllIntrinsicTypes` whose mapped host type is exactly `HOST_T`; the
result is that entry, or `UnknownType` (here `none`) when no forward
entry targets `HOST_T`. -/
def FortranTypeCore (int128c real4c real8c real10c real16c : Bool)
    (h : HostTypeRep) : Option FType :=
  AllIntrinsicTypes.find?
    (fun t => HostTypeCore int128c real4c real8c real10c real16c t == h)

/-- `FortranType<HOST_T>`: inverse lookup from a host type to the
Fortran intrinsic type that produced it. -/
def FortranType (p : HostProfile) (h : HostTypeRep) : Option FType :=
  FortranTypeCore (Int128Cond p) (Real4Cond p) (Real8Cond p) (Real10Cond p)
    (Real16Cond p) h

/-- `NextBiggerReal<cat, KIND>::Type`: the fixed per-category successor
over widths used by the promotion resolver (2 to 4, 3 to 4, 4 to 8,
8 to 10, 10 to 16); for every other kind the primary template yields
`void`, modelled as `none`. -/
def NextBiggerReal (k : Nat) : Option Nat :=
  match k with
  | 2 => some 4
  | 3 => some 4
  | 4 => some 8
  | 8 => some 10
  | 10 => some 16
  | _ => none

theorem NextBiggerReal_lt {k j : Nat} (h : NextBiggerReal k = some j) :
    k < j ∧ j ≤ 16 := by
  unfold NextBiggerReal at h
  split at h <;> simp_all <;> omega

theorem NextBiggerReal_eq_none {k : Nat} (h : 16 ≤ k) :
    NextBiggerReal k = none := by
  unfold NextBiggerReal
  split <;> first | rfl | omega

/-- `BiggerOrSameHostTypeHelper<Type<Real, KIND>>` and its Complex twin:
if the type itself is host-backed the result is its own host type and
itself; otherwise the helper recurses through `NextBiggerReal`, and a
`void` successor lands in the primary template, which gives
`UnsupportedType` and `void` (here `none`). -/
def BiggerOrSameHostTypeHelperRC (p : HostProfile) (cat : TypeCategory)
    (k : Nat) : HostTypeRep × Option FType :=
  if HostTypeExists p ⟨cat, k⟩ then (HostType p ⟨cat, k⟩, some ⟨cat, k⟩)
  else
    match h : NextBiggerReal k with
    | some j => BiggerOrSameHostTypeHelperRC p cat j
    | none => (.unsupported, none)
  termination_by 16 - k
  decreasing_by
    have := NextBiggerReal_lt h
    omega

/-- `BiggerOrSameHostTypeHelper<T>`: the Real and Complex
specializations walk the widening chain; every other category uses the
primary template, whose `Type` is the type's own host type when it
exists (`UnsupportedType` otherwise) and whose `FortranType` is the type
itself. -/
def BiggerOrSameHostTypeHelper (p : HostProfile) (t : FType) :
    HostTypeRep × Option FType :=
  match t.category with
  | .Real => BiggerOrSameHostTypeHelperRC p .Real t.kind
  | .Complex => BiggerOrSameHostTypeHelperRC p .Complex t.kind
  | _ =>
      ((if HostTypeExists p t then HostType p t else .unsupported), some t)

/-- `BiggerOrSameHostType<FTN_T>`. -/
def BiggerOrSameHostType (p : HostProfile) (t : FType) : HostTypeRep :=
  (BiggerOrSameHostTypeHelper p t).1

/-- `BiggerOrSameFortranTypeSupportedOnHost<FTN_T>` (with `none` for the
`void` produced by an exhausted chain). -/
def BiggerOrSameFortranTypeSupportedOnHost (p : HostProfile) (t : FType) :
    Option FType :=
  (BiggerOrSameHostTypeHelper p t).2

/-- The list of widths the promotion resolver visits starting from `k`:
`k` itself followed by the `NextBiggerReal` successors until the chain
ends.  Used to state the observable behavior of the chain walk. -/
def RealChainFrom (k : Nat) : List Nat :=
  k ::
    match h : NextBiggerReal k with
    | some j => RealChainFrom j
    | none => []
  termination_by 16 - k
  decreasing_by
    have := NextBiggerReal_lt h
    omega

/-- Byte sizes that `sizeof` reports for the external scalar encodings
and for the host types.  Modelled from the spec: `sizeof(Scalar<T>)` is
a fact of the external source type system (`type.h`), and host type
sizes are ABI facts; `host.h` only compares them for equality in the
complex cast, so the embedding keeps them abstract. -/
structure SizeModel where
  scalarSize : FType → Nat
  hostSizeOf : HostTypeRep → Nat

/-- Reading an object of `n` bytes through `reinterpret_cast` at the
address of a source byte pattern: the first `n` bytes are taken, and any
bytes past the end of the source object are unspecified (modelled as
zero padding). -/
def reinterpretTo (n : Nat) (bytes : List Nat) : List Nat :=
  (bytes ++ List.replicate n 0).take n

/-- Measure for the complex-to-real recursion of the two casts. -/
def catRank : TypeCategory → Nat
  | .Complex => 1
  | _ => 0

/-- `CastFortranToHost<FTN_T>`: converts a Fortran scalar byte pattern
to the host encoding.  The `static_assert(HostTypeExists<FTN_T>())`
contract is the `none` guard.  For a Complex kind whose scalar size
differs from the host complex size, the value is decomposed into its
REAL() and AIMAG() parts (the scalar stores the two part encodings
consecutively) and each part is cast via the Real path; otherwise the
byte pattern is reinterpreted directly. -/
def CastFortranToHost (p : HostProfile) (sz : SizeModel) (t : FType)
    (x : List Nat) : Option (List Nat) :=
  if HostTypeExists p t then
    if h : t.category = .Complex ∧
        sz.scalarSize t ≠ sz.hostSizeOf (HostType p t) then
      (CastFortranToHost p sz ⟨.Real, t.kind⟩
          (x.take (sz.scalarSize ⟨.Real, t.kind⟩))).bind fun re =>
        (CastFortranToHost p sz ⟨.Real, t.kind⟩
            (x.drop (sz.scalarSize ⟨.Real, t.kind⟩))).map fun im => re ++ im
    else some (reinterpretTo (sz.hostSizeOf (HostType p t)) x)
  else none
  termination_by catRank t.category
  decreasing_by
    all_goals (rw [h.1]; decide)

/-- `CastHostToFortran<FTN_T>`: converts a host encoding back to the
Fortran scalar byte pattern; for the size-mismatched Complex case it
splits the host `std::complex` value into `std::real` and `std::imag`
(the two host part encodings stored consecutively) and casts each via
the Real path. -/
def CastHostToFortran (p : HostProfile) (sz : SizeModel) (t : FType)
    (x : List Nat) : Option (List Nat) :=
  if HostTypeExists p t then
    if h : t.category = .Complex ∧
        sz.scalarSize t ≠ sz.hostSizeOf (HostType p t) then
      (CastHostToFortran p sz ⟨.Real, t.kind⟩
          (x.take (sz.hostSizeOf (HostType p ⟨.Real, t.kind⟩)))).bind fun re =>
        (CastHostToFortran p sz ⟨.Real, t.kind⟩
            (x.drop (sz.hostSizeOf (HostType p ⟨.Real, t.kind⟩)))).map
          fun im => re ++ im
    else some (reinterpretTo (sz.scalarSize t) x)
  else none
  termination_by catRank t.category
  decreasing_by
    all_goals (rw [h.1]; decide)

/-- Size compatibility needed for a lossless round trip of the casts on
type `t`: a Complex scalar is exactly its two Real parts and each Real
part pattern fits in the corresponding host type; a non-Complex scalar
pattern fits in its host type. -/
def SizeOk (p : HostProfile) (sz : SizeModel) (t : FType) : Bool :=
  if t.category = .Complex then
    (sz.scalarSize t == 2 * sz.scalarSize ⟨.Real, t.kind⟩) &&
      decide (sz.scalarSize ⟨.Real, t.kind⟩ ≤
        sz.hostSizeOf (HostType p ⟨.Real, t.kind⟩))
  else
    decide (sz.scalarSize t ≤ sz.hostSizeOf (HostType p t))

/-- Modelled from the spec: the set of host floating-point status flags
(overflow, underflow, invalid, inexact, divide-by-zero).  The guard's
implementation lives in `host.cc`, which is not part of the given
sources; only its declaration appears in `host.h`. -/
structure FPFlags where
  overflow : Bool
  underflow : Bool
  invalid : Bool
  inexact : Bool
  divideByZero : Bool
  deriving DecidableEq, Repr

/-- The empty flag set. -/
def FPFlags.clear : FPFlags := ⟨false, false, false, false, false⟩

/-- Union of two flag sets (a flag is raised in the union iff raised in
either operand). -/
def FPFlags.union (a b : FPFlags) : FPFlags :=
  ⟨a.overflow || b.overflow, a.underflow || b.underflow,
   a.invalid || b.invalid, a.inexact || b.inexact,
   a.divideByZero || b.divideByZero⟩

/-- Modelled from the spec: an `std::fenv_t` snapshot value — the host
floating-point environment at one instant: control state (rounding mode
and trap mask, kept abstract as a code) plus accumulated status flags. -/
structure FPEnvState where
  control : Nat
  flags : FPFlags
  deriving DecidableEq, Repr

/-- The guard object of `host.h`: it stores the environment captured at
set-up (`originalFenv_`). -/
structure HostFloatingPointEnvironment where
  originalFenv : FPEnvState
  deriving DecidableEq, Repr

/-- Modelled from the spec: the folding-context sink that receives the
set of raised floating-point condition flags at check-and-restore. -/
structure FoldingContext where
  flagsReported : FPFlags
  deriving DecidableEq, Repr

/-- Modelled from the spec:
`HostFloatingPointEnvironment::SetUpHostFloatingPointEnvironment`
(defined in `host.cc`, absent from the given sources) captures the
current environment as a snapshot, clears the pending status flags and
installs the trap/rounding configuration requested by the folding
context.  Returns the guard and the new environment. -/
def SetUpHostFloatingPointEnvironment (requestedControl : Nat)
    (s : FPEnvState) : HostFloatingPointEnvironment × FPEnvState :=
  (⟨s⟩, ⟨requestedControl, FPFlags.clear⟩)

/-- Modelled from the spec:
`HostFloatingPointEnvironment::CheckAndRestoreFloatingPointEnvironment`
(defined in `host.cc`, absent from the given sources) reads the status
flags accumulated since set-up, reports them to the folding context and
restores the snapshot captured at set-up. -/
def CheckAndRestoreFloatingPointEnvironment
    (g : HostFloatingPointEnvironment) (ctx : FoldingContext)
    (s : FPEnvState) : FoldingContext × FPEnvState :=
  ({ ctx with flagsReported := s.flags }, g.originalFenv)

theorem HostTypeExists_real4 (p : HostProfile) :
    HostTypeExists p ⟨.Real, 4⟩ = Real4Cond p := by
  cases h : Real4Cond p <;>
    simp [HostTypeExists, HostType, HostTypeCore, HostTypeNonComplex, h]

theorem HostTypeExists_real8 (p : HostProfile) :
    HostTypeExists p ⟨.Real, 8⟩ = Real8Cond p := by
  cases h : Real8Cond p <;>
    simp [HostTypeExists, HostType, HostTypeCore, HostTypeNonComplex, h]

theorem HostTypeExists_real10 (p : HostProfile) :
    HostTypeExists p ⟨.Real, 10⟩ = Real10Cond p := by
  cases h : Real10Cond p <;>
    simp [HostTypeExists, HostType, HostTypeCore, HostTypeNonComplex, h]

theorem HostTypeExists_real16 (p : HostProfile) :
    HostTypeExists p ⟨.Real, 16⟩ = Real16Cond p := by
  cases h : Real16Cond p <;>
    simp [HostTypeExists, HostType, HostTypeCore, HostTypeNonComplex, h]

theorem Real10_Real16_exclusive (p : HostProfile) :
    (Real10Cond p && Real16Cond p) = false := by
  unfold Real10Cond Real16Cond
  by_cases h : p.longDoubleDigits = 64
  · have h113 : (p.longDoubleDigits == 113) = false := by simp [h]
    simp [h113]
  · have h64 : (p.longDoubleDigits == 64) = false := by simpa using h
    simp [h64]

theorem HostType_nonComplex (p : HostProfile) (c : TypeCategory) (k : Nat)
    (hc : c ≠ .Complex) :
    HostType p ⟨c, k⟩ =
      HostTypeNonComplex (Int128Cond p) (Real4Cond p) (Real8Cond p)
        (Real10Cond p) (Real16Cond p) c k := by
  cases c <;> first | rfl | exact absurd rfl hc

theorem HostTypeExists_complex (p : HostProfile) (k : Nat) :
    HostTypeExists p ⟨.Complex, k⟩ = HostTypeExists p ⟨.Real, k⟩ := by
  have hr : HostType p ⟨.Real, k⟩ =
      HostTypeNonComplex (Int128Cond p) (Real4Cond p) (Real8Cond p)
        (Real10Cond p) (Real16Cond p) .Real k := rfl
  cases hnc : HostTypeNonComplex (Int128Cond p) (Real4Cond p) (Real8Cond p)
      (Real10Cond p) (Real16Cond p) .Real k <;>
    simp [HostTypeExists, HostType, HostTypeCore, hnc] <;> rfl

/-- Claim C3: for every width `k`, the Complex kind of width `k` has a
host correspondence iff the Real kind of width `k` does, and when it
does its host representation is `std::complex` of the Real host
representation. -/
theorem claim_c3_complex_mirrors_real (p : HostProfile) (k : Nat) :
    HostTypeExists p ⟨.Complex, k⟩ = HostTypeExists p ⟨.Real, k⟩ ∧
    HostType p ⟨.Complex, k⟩ =
      (if HostTypeExists p ⟨.Real, k⟩ then
        HostTypeRep.complex (HostType p ⟨.Real, k⟩)
       else .unsupported) := by
  refine ⟨HostTypeExists_complex p k, ?_⟩
  have hr : HostType p ⟨.Real, k⟩ =
      HostTypeNonComplex (Int128Cond p) (Real4Cond p) (Real8Cond p)
        (Real10Cond p) (Real16Cond p) .Real k := rfl
  cases hnc : HostTypeNonComplex (Int128Cond p) (Real4Cond p) (Real8Cond p)
      (Real10Cond p) (Real16Cond p) .Real k <;>
    simp [HostTypeExists, HostType, HostTypeCore, hnc]

/-- Claim C6: a Real kind has a host correspondence exactly when the
host native type of that width exists and matches the required IEEE-754
profile; Real kinds 2 and 3 never have a correspondence. -/
theorem claim_c6_real_existence_profile (p : HostProfile) :
    (HostTypeExists p ⟨.Real, 4⟩ = true ↔
      p.floatSize = 4 ∧ p.floatIsIec559 = true) ∧
    (HostTypeExists p ⟨.Real, 8⟩ = true ↔
      p.doubleSize = 8 ∧ p.doubleIsIec559 = true) ∧
    (HostTypeExists p ⟨.Real, 10⟩ = true ↔
      10 ≤ p.longDoubleSize ∧ p.longDoubleDigits = 64 ∧
        p.longDoubleMaxExponent = 16384) ∧
    (HostTypeExists p ⟨.Real, 16⟩ = true ↔
      p.longDoubleSize = 16 ∧ p.longDoubleDigits = 113 ∧
        p.longDoubleMaxExponent = 16384) ∧
    HostTypeExists p ⟨.Real, 2⟩ = false ∧
    HostTypeExists p ⟨.Real, 3⟩ = false := by
  refine ⟨?_, ?_, ?_, ?_, rfl, rfl⟩
  · rw [HostTypeExists_real4]
    simp [Real4Cond, Bool.and_eq_true]
  · rw [HostTypeExists_real8]
    simp [Real8Cond, Bool.and_eq_true]
  · rw [HostTypeExists_real10]
    simp [Real10Cond, Bool.and_eq_true, and_assoc]
  · rw [HostTypeExists_real16]
    simp [Real16Cond, Bool.and_eq_true, and_assoc]

/-- Claim C7: a Logical kind of width `k` has a host correspondence iff
`k ≤ 8`, in which case the host representation is the single-byte
`std::uint8_t`; wider Logical kinds map to `UnsupportedType`. -/
theorem claim_c7_logical_existence (p : HostProfile) (k : Nat) :
    (HostTypeExists p ⟨.Logical, k⟩ = true ↔ k ≤ 8) ∧
    HostType p ⟨.Logical, k⟩ =
      (if k ≤ 8 then .uint8 else .unsupported) := by
  have hl : HostType p ⟨.Logical, k⟩ =
      (if k ≤ 8 then .uint8 else .unsupported) := rfl
  refine ⟨?_, hl⟩
  by_cases hk : k ≤ 8 <;> simp [HostTypeExists, hl, hk]

/-- Claim C10: on any single host, at most one of Real(10) and Real(16)
has a host correspondence — their long-double layout profiles (64 vs 113
significant digits) are mutually exclusive. -/
theorem claim_c10_real10_real16_never_both (p : HostProfile) :
    HostTypeExists p ⟨.Real, 10⟩ = false ∨
    HostTypeExists p ⟨.Real, 16⟩ = false := by
  rw [HostTypeExists_real10, HostTypeExists_real16]
  cases h10 : Real10Cond p
  · exact Or.inl rfl
  · right
    have := Real10_Real16_exclusive p
    rwa [h10, Bool.true_and] at this

theorem FortranTypeCore_inverts (b1 b2 b3 b4 b5 : Bool)
    (hex10and16 : (b4 && b5) = false) :
    ∀ t ∈ AllIntrinsicTypes, HostTypeExistsCore b1 b2 b3 b4 b5 t = true →
      FortranTypeCore b1 b2 b3 b4 b5 (HostTypeCore b1 b2 b3 b4 b5 t) =
        some (if t.category = .Logical then ⟨.Logical, 1⟩ else t) := by
  revert b1 b2 b3 b4 b5
  decide

/-- A mainstream x86-64 host: `__int128` available, 4-byte IEC 559
`float`, 8-byte IEC 559 `double`, and the x87 80-bit `long double`
(16 bytes of storage, 64 significant digits, max exponent 16384). -/
def DemoProfileX87 : HostProfile :=
  ⟨true, 4, true, 8, true, 16, 64, 16384⟩

/-- Claim C2 does not hold as stated: on a mainstream host, the Logical
kind 2 is host-backed, yet the inverse lookup of its host type resolves
to Logical kind 1, because every Logical kind maps to the same
`std::uint8_t` representation and the index scan returns the first
match. -/
theorem claim_c2_counterexample :
    HostTypeExists DemoProfileX87 ⟨.Logical, 2⟩ = true ∧
    (⟨.Logical, 2⟩ : FType) ∈ AllIntrinsicTypes ∧
    FortranType DemoProfileX87 (HostType DemoProfileX87 ⟨.Logical, 2⟩) =
      some ⟨.Logical, 1⟩ ∧
    (FortranType DemoProfileX87 (HostType DemoProfileX87 ⟨.Logical, 2⟩) ==
      some (⟨.Logical, 2⟩ : FType)) = false := by
  decide

/-- Claim C2 (amended): for every Fortran intrinsic type `t` with a host
correspondence, the inverse lookup returns `t` itself — except that all
Logical kinds share the `std::uint8_t` host representation, so the
inverse lookup of a Logical kind resolves to Logical kind 1, the first
entry of `AllIntrinsicTypes` with that representation.  Host types whose
byte width is shared across categories (such as a 4-byte integer and a
4-byte real) remain distinct C++ types, so the lookup still resolves to
the category that produced the representation. -/
theorem claim_c2_inverse_amended (p : HostProfile) (t : FType)
    (hmem : t ∈ AllIntrinsicTypes)
    (hex : HostTypeExists p t = true) :
    FortranType p (HostType p t) =
      some (if t.category = .Logical then ⟨.Logical, 1⟩ else t) :=
  FortranTypeCore_inverts (Int128Cond p) (Real4Cond p) (Real8Cond p)
    (Real10Cond p) (Real16Cond p) (Real10_Real16_exclusive p) t hmem hex

theorem claim_c2_inverse_amended_witness :
    ((⟨.Integer, 4⟩ : FType) ∈ AllIntrinsicTypes ∧
      HostTypeExists DemoProfileX87 ⟨.Integer, 4⟩ = true) ∧
    FortranType DemoProfileX87 (HostType DemoProfileX87 ⟨.Integer, 4⟩) =
      some (if (⟨.Integer, 4⟩ : FType).category = .Logical then
        ⟨.Logical, 1⟩ else ⟨.Integer, 4⟩) :=
  ⟨⟨by decide, by decide⟩,
    claim_c2_inverse_amended DemoProfileX87 ⟨.Integer, 4⟩ (by decide)
      (by decide)⟩

/-- Claim C5: Integer, Logical and Character kinds never promote — the
primary `BiggerOrSameHostTypeHelper` template applies, so the resolved
host type is the kind's own host type (or `UnsupportedType`) and the
resolved Fortran type is always the kind itself. -/
theorem claim_c5_integral_kinds_never_promote (p : HostProfile) (k : Nat) :
    (BiggerOrSameHostType p ⟨.Integer, k⟩ =
        (if HostTypeExists p ⟨.Integer, k⟩ then HostType p ⟨.Integer, k⟩
         else .unsupported) ∧
      BiggerOrSameFortranTypeSupportedOnHost p ⟨.Integer, k⟩ =
        some ⟨.Integer, k⟩) ∧
    (BiggerOrSameHostType p ⟨.Logical, k⟩ =
        (if HostTypeExists p ⟨.Logical, k⟩ then HostType p ⟨.Logical, k⟩
         else .unsupported) ∧
      BiggerOrSameFortranTypeSupportedOnHost p ⟨.Logical, k⟩ =
        some ⟨.Logical, k⟩) ∧
    (BiggerOrSameHostType p ⟨.Character, k⟩ =
        (if HostTypeExists p ⟨.Character, k⟩ then HostType p ⟨.Character, k⟩
         else .unsupported) ∧
      BiggerOrSameFortranTypeSupportedOnHost p ⟨.Character, k⟩ =
        some ⟨.Character, k⟩) :=
  ⟨⟨rfl, rfl⟩, ⟨rfl, rfl⟩, ⟨rfl, rfl⟩⟩

theorem BiggerOrSameRC_unfold (p : HostProfile) (cat : TypeCategory)
    (k : Nat) :
    BiggerOrSameHostTypeHelperRC p cat k =
      if HostTypeExists p ⟨cat, k⟩ then (HostType p ⟨cat, k⟩, some ⟨cat, k⟩)
      else
        match NextBiggerReal k with
        | some j => BiggerOrSameHostTypeHelperRC p cat j
        | none => (.unsupported, none) := by
  rw [BiggerOrSameHostTypeHelperRC]
  rcases hn : NextBiggerReal k with _ | j <;> simp [hn]

theorem RealChainFrom_unfold (k : Nat) :
    RealChainFrom k =
      k ::
        (match NextBiggerReal k with
         | some j => RealChainFrom j
         | none => []) := by
  rw [RealChainFrom]
  rcases hn : NextBiggerReal k with _ | j <;> simp [hn]

theorem BiggerOrSameRC_chain_aux (n : Nat) :
    ∀ (p : HostProfile) (cat : TypeCategory) (k : Nat), 16 - k ≤ n →
      BiggerOrSameHostTypeHelperRC p cat k =
        match (RealChainFrom k).find?
            (fun j => HostTypeExists p ⟨cat, j⟩) with
        | some j => (HostType p ⟨cat, j⟩, some ⟨cat, j⟩)
        | none => (.unsupported, none) := by
  induction n with
  | zero =>
      intro p cat k hk
      have hn : NextBiggerReal k = none := NextBiggerReal_eq_none (by omega)
      rw [BiggerOrSameRC_unfold, RealChainFrom_unfold, hn]
      cases hex : HostTypeExists p ⟨cat, k⟩ <;> simp [List.find?, hex]
  | succ n ih =>
      intro p cat k hk
      rw [BiggerOrSameRC_unfold, RealChainFrom_unfold]
      cases hex : HostTypeExists p ⟨cat, k⟩
      · rcases hn : NextBiggerReal k with _ | j
        · simp [List.find?, hex, hn]
        · have hlt := NextBiggerReal_lt hn
          have hih := ih p cat j (by omega)
          simp [List.find?, hex, hn, hih]
      · simp [List.find?, hex]

theorem BiggerOrSameRC_chain (p : HostProfile) (cat : TypeCategory)
    (k : Nat) :
    BiggerOrSameHostTypeHelperRC p cat k =
      match (RealChainFrom k).find?
          (fun j => HostTypeExists p ⟨cat, j⟩) with
      | some j => (HostType p ⟨cat, j⟩, some ⟨cat, j⟩)
      | none => (.unsupported, none) :=
  BiggerOrSameRC_chain_aux (16 - k) p cat k le_rfl

/-- Claim C4: for a Real or Complex kind, the promotion resolver returns
the kind's own host mapping when it exists and otherwise the mapping of
the first kind along the fixed widening chain (2 to 4, 3 to 4, 4 to 8,
8 to 10, 10 to 16) that is host-backed, or Unsupported when the chain is
exhausted: the result is exactly the first host-backed entry of the
width list starting at `k` and following the `NextBiggerReal`
successors (witness profile: no width-10 support but width-16 support,
where an unsupported width-8 kind promotes to width 16). -/
theorem claim_c4_promotion_chain (p : HostProfile) (cat : TypeCategory)
    (k : Nat) (hcat : cat = .Real ∨ cat = .Complex) :
    BiggerOrSameHostTypeHelper p ⟨cat, k⟩ =
      (match (RealChainFrom k).find?
          (fun j => HostTypeExists p ⟨cat, j⟩) with
      | some j => (HostType p ⟨cat, j⟩, some ⟨cat, j⟩)
      | none => (.unsupported, none)) ∧
    RealChainFrom 2 = [2, 4, 8, 10, 16] ∧
    RealChainFrom 3 = [3, 4, 8, 10, 16] := by
  refine ⟨?_, ?_, ?_⟩
  · rcases hcat with h | h <;> subst h <;>
      exact BiggerOrSameRC_chain p _ k
  · simp [RealChainFrom, NextBiggerReal]
  · simp [RealChainFrom, NextBiggerReal]

/-- A synthetic host lacking width-8 and width-10 host reals but with an
IEEE-754 quad `long double` (width 16). -/
def DemoProfileQuad : HostProfile :=
  ⟨true, 4, true, 8, false, 16, 113, 16384⟩

theorem claim_c4_promotion_chain_witness :
    ((.Real : TypeCategory) = .Real ∨ (.Real : TypeCategory) = .Complex) ∧
    BiggerOrSameHostTypeHelper DemoProfileQuad ⟨.Real, 8⟩ =
      (.longDouble, some ⟨.Real, 16⟩) := by
  refine ⟨Or.inl rfl, ?_⟩
  have h := (claim_c4_promotion_chain DemoProfileQuad .Real 8
    (Or.inl rfl)).1
  rw [h]
  have hc : RealChainFrom 8 = [8, 10, 16] := by
    simp [RealChainFrom, NextBiggerReal]
  rw [hc]
  decide

theorem reinterpretTo_length (n : Nat) (l : List Nat) :
    (reinterpretTo n l).length = n := by
  simp [reinterpretTo]

theorem reinterpretTo_of_length_le {l : List Nat} {n : Nat}
    (h : l.length ≤ n) :
    reinterpretTo n l = l ++ List.replicate (n - l.length) 0 := by
  unfold reinterpretTo
  rw [List.take_append_eq_append_take, List.take_of_length_le h,
    List.take_replicate, Nat.min_eq_left (Nat.sub_le n l.length)]

theorem reinterpretTo_roundtrip {l : List Nat} {m n : Nat}
    (hl : l.length = m) (hmn : m ≤ n) :
    reinterpretTo m (reinterpretTo n l) = l := by
  subst hl
  rw [reinterpretTo_of_length_le hmn]
  unfold reinterpretTo
  rw [List.append_assoc, List.take_append_eq_append_take]
  simp

theorem CastFortranToHost_unfold (p : HostProfile) (sz : SizeModel)
    (t : FType) (x : List Nat) :
    CastFortranToHost p sz t x =
      if HostTypeExists p t then
        if t.category = .Complex ∧
            sz.scalarSize t ≠ sz.hostSizeOf (HostType p t) then
          (CastFortranToHost p sz ⟨.Real, t.kind⟩
              (x.take (sz.scalarSize ⟨.Real, t.kind⟩))).bind fun re =>
            (CastFortranToHost p sz ⟨.Real, t.kind⟩
                (x.drop (sz.scalarSize ⟨.Real, t.kind⟩))).map
              fun im => re ++ im
        else some (reinterpretTo (sz.hostSizeOf (HostType p t)) x)
      else none := by
  rw [CastFortranToHost]
  simp only [dite_eq_ite]

theorem CastHostToFortran_unfold (p : HostProfile) (sz : SizeModel)
    (t : FType) (x : List Nat) :
    CastHostToFortran p sz t x =
      if HostTypeExists p t then
        if t.category = .Complex ∧
            sz.scalarSize t ≠ sz.hostSizeOf (HostType p t) then
          (CastHostToFortran p sz ⟨.Real, t.kind⟩
              (x.take (sz.hostSizeOf (HostType p ⟨.Real, t.kind⟩)))).bind
            fun re =>
              (CastHostToFortran p sz ⟨.Real, t.kind⟩
                  (x.drop (sz.hostSizeOf
                    (HostType p ⟨.Real, t.kind⟩)))).map
                fun im => re ++ im
        else some (reinterpretTo (sz.scalarSize t) x)
      else none := by
  rw [CastHostToFortran]
  simp only [dite_eq_ite]

theorem CastFortranToHost_nonComplex (p : HostProfile) (sz : SizeModel)
    (t : FType) (x : List Nat) (hc : t.category ≠ .Complex) :
    CastFortranToHost p sz t x =
      if HostTypeExists p t then
        some (reinterpretTo (sz.hostSizeOf (HostType p t)) x)
      else none := by
  rw [CastFortranToHost_unfold]
  simp [hc]

theorem CastHostToFortran_nonComplex (p : HostProfile) (sz : SizeModel)
    (t : FType) (x : List Nat) (hc : t.category ≠ .Complex) :
    CastHostToFortran p sz t x =
      if HostTypeExists p t then
        some (reinterpretTo (sz.scalarSize t) x)
      else none := by
  rw [CastHostToFortran_unfold]
  simp [hc]

/-- Claim C8: each cast succeeds exactly when the kind has a host
correspondence — the `static_assert(HostTypeExists<FTN_T>())` guard is
the only failure path, so under the precondition `HostTypeExists` the
casts never fail, and no execution path lets a cast operate on an
unsupported kind. -/
theorem claim_c8_casts_guarded_by_existence (p : HostProfile)
    (sz : SizeModel) (t : FType) (x : List Nat) :
    (CastFortranToHost p sz t x).isSome = HostTypeExists p t ∧
    (CastHostToFortran p sz t x).isSome = HostTypeExists p t := by
  rcases t with ⟨c, k⟩
  constructor
  · cases hex : HostTypeExists p ⟨c, k⟩
    · rw [CastFortranToHost_unfold]
      simp [hex]
    · by_cases hc : c = .Complex
      · subst hc
        have hexr : HostTypeExists p ⟨.Real, k⟩ = true := by
          rwa [HostTypeExists_complex] at hex
        rw [CastFortranToHost_unfold]
        by_cases hm : sz.scalarSize ⟨.Complex, k⟩ =
            sz.hostSizeOf (HostType p ⟨.Complex, k⟩)
        · simp [hex, hm]
        · simp [hex, hm, CastFortranToHost_nonComplex, hexr]
      · rw [CastFortranToHost_unfold]
        simp [hex, hc]
  · cases hex : HostTypeExists p ⟨c, k⟩
    · rw [CastHostToFortran_unfold]
      simp [hex]
    · by_cases hc : c = .Complex
      · subst hc
        have hexr : HostTypeExists p ⟨.Real, k⟩ = true := by
          rwa [HostTypeExists_complex] at hex
        rw [CastHostToFortran_unfold]
        by_cases hm : sz.scalarSize ⟨.Complex, k⟩ =
            sz.hostSizeOf (HostType p ⟨.Complex, k⟩)
        · simp [hex, hm]
        · simp [hex, hm, CastHostToFortran_nonComplex, hexr]
      · rw [CastHostToFortran_unfold]
        simp [hex, hc]

/-- Size assignment with the program's true Logical sizes: the scalar
of `Type<Logical, KIND>` (`value::Logical<8*KIND>`, wrapping an
`Integer<8*KIND>`) occupies `KIND` bytes, while every host-backed
Logical kind maps to the one-byte `std::uint8_t`. -/
def TrueLogicalSizes : SizeModel :=
  ⟨fun t =>
    match t with
    | ⟨.Logical, k⟩ => k
    | _ => 1,
   fun _ => 1⟩

/-- Claim C1 fails as stated: Logical kind 2 is host-backed
(`KIND <= 8` maps to `std::uint8_t`), yet with the program's true sizes
(2-byte scalar against the 1-byte host type) the cast round trip is not
the identity — `CastFortranToHost` keeps a single byte and
`CastHostToFortran` reads two bytes back from the one-byte object, so
the scalar pattern `[1, 7]` comes back as `[1, 0]`. -/
theorem claim_c1_counterexample :
    HostTypeExists DemoProfileX87 ⟨.Logical, 2⟩ = true ∧
    ([1, 7] : List Nat).length = TrueLogicalSizes.scalarSize ⟨.Logical, 2⟩ ∧
    (CastFortranToHost DemoProfileX87 TrueLogicalSizes ⟨.Logical, 2⟩
        [1, 7]).bind
      (CastHostToFortran DemoProfileX87 TrueLogicalSizes ⟨.Logical, 2⟩) =
      some [1, 0] ∧
    ((CastFortranToHost DemoProfileX87 TrueLogicalSizes ⟨.Logical, 2⟩
          [1, 7]).bind
        (CastHostToFortran DemoProfileX87 TrueLogicalSizes ⟨.Logical, 2⟩) ==
      some ([1, 7] : List Nat)) = false := by
  have h1 : CastFortranToHost DemoProfileX87 TrueLogicalSizes
      ⟨.Logical, 2⟩ [1, 7] = some [1] := by
    rw [CastFortranToHost_nonComplex DemoProfileX87 TrueLogicalSizes
      ⟨.Logical, 2⟩ [1, 7] (fun h => nomatch h)]
    decide
  have h2 : CastHostToFortran DemoProfileX87 TrueLogicalSizes
      ⟨.Logical, 2⟩ [1] = some [1, 0] := by
    rw [CastHostToFortran_nonComplex DemoProfileX87 TrueLogicalSizes
      ⟨.Logical, 2⟩ [1] (fun h => nomatch h)]
    decide
  have hcast : (CastFortranToHost DemoProfileX87 TrueLogicalSizes
        ⟨.Logical, 2⟩ [1, 7]).bind
      (CastHostToFortran DemoProfileX87 TrueLogicalSizes ⟨.Logical, 2⟩) =
      some [1, 0] := by
    rw [h1, Option.some_bind, h2]
  refine ⟨by decide, by decide, hcast, ?_⟩
  rw [hcast]
  decide

/-- Claim C1 (amended): for every host-backed Fortran type whose scalar
byte pattern fits within the host representation — for Complex kinds,
each Real part pattern fits in the Real host type and the scalar is
exactly its two parts — casting a scalar to the host representation and
back is the identity bit-for-bit; and for Complex kinds whose scalar
size differs from the host complex size, both casts decompose the value
into real and imaginary parts and cast each part via the Real path
instead of copying bytes across mismatched sizes.  The size proviso
(`SizeOk`) is necessary: it excludes Logical kinds 2/4/8, whose 2/4/8
byte scalars are truncated by the one-byte `std::uint8_t` host type. -/
theorem claim_c1_cast_roundtrip (p : HostProfile) (sz : SizeModel)
    (t : FType) (x y : List Nat)
    (hex : HostTypeExists p t = true)
    (hlen : x.length = sz.scalarSize t)
    (hok : SizeOk p sz t = true) :
    (CastFortranToHost p sz t x).bind (CastHostToFortran p sz t) =
      some x ∧
    (t.category = .Complex →
      sz.scalarSize t ≠ sz.hostSizeOf (HostType p t) →
      CastFortranToHost p sz t x =
        ((CastFortranToHost p sz ⟨.Real, t.kind⟩
            (x.take (sz.scalarSize ⟨.Real, t.kind⟩))).bind fun re =>
          (CastFortranToHost p sz ⟨.Real, t.kind⟩
              (x.drop (sz.scalarSize ⟨.Real, t.kind⟩))).map
            fun im => re ++ im) ∧
      CastHostToFortran p sz t y =
        ((CastHostToFortran p sz ⟨.Real, t.kind⟩
            (y.take (sz.hostSizeOf (HostType p ⟨.Real, t.kind⟩)))).bind
          fun re =>
            (CastHostToFortran p sz ⟨.Real, t.kind⟩
                (y.drop (sz.hostSizeOf (HostType p ⟨.Real, t.kind⟩)))).map
              fun im => re ++ im)) := by
  rcases t with ⟨c, k⟩
  constructor
  · by_cases hc : c = .Complex
    · subst hc
      have hexr : HostTypeExists p ⟨.Real, k⟩ = true := by
        rwa [HostTypeExists_complex] at hex
      have hok2 : ((sz.scalarSize ⟨.Complex, k⟩ ==
            2 * sz.scalarSize ⟨.Real, k⟩) &&
          decide (sz.scalarSize ⟨.Real, k⟩ ≤
            sz.hostSizeOf (HostType p ⟨.Real, k⟩))) = true := hok
      rw [Bool.and_eq_true, beq_iff_eq, decide_eq_true_eq] at hok2
      obtain ⟨h2s, hsr⟩ := hok2
      by_cases hm : sz.scalarSize ⟨.Complex, k⟩ =
          sz.hostSizeOf (HostType p ⟨.Complex, k⟩)
      · rw [CastFortranToHost_unfold, if_pos hex,
          if_neg (fun hq => hq.2 hm)]
        simp only [Option.some_bind]
        rw [CastHostToFortran_unfold, if_pos hex,
          if_neg (fun hq => hq.2 hm)]
        rw [reinterpretTo_roundtrip hlen (le_of_eq hm)]
      · have hxt : (x.take (sz.scalarSize ⟨.Real, k⟩)).length =
            sz.scalarSize ⟨.Real, k⟩ := by
          simp only [List.length_take]
          omega
        have hxd : (x.drop (sz.scalarSize ⟨.Real, k⟩)).length =
            sz.scalarSize ⟨.Real, k⟩ := by
          simp only [List.length_drop]
          omega
        have ha : CastFortranToHost p sz ⟨.Real, k⟩
              (x.take (sz.scalarSize ⟨.Real, k⟩)) =
            some (reinterpretTo (sz.hostSizeOf (HostType p ⟨.Real, k⟩))
              (x.take (sz.scalarSize ⟨.Real, k⟩))) := by
          rw [CastFortranToHost_nonComplex p sz ⟨.Real, k⟩
              (x.take (sz.scalarSize ⟨.Real, k⟩)) (fun h => nomatch h),
            if_pos hexr]
        have hb : CastFortranToHost p sz ⟨.Real, k⟩
              (x.drop (sz.scalarSize ⟨.Real, k⟩)) =
            some (reinterpretTo (sz.hostSizeOf (HostType p ⟨.Real, k⟩))
              (x.drop (sz.scalarSize ⟨.Real, k⟩))) := by
          rw [CastFortranToHost_nonComplex p sz ⟨.Real, k⟩
              (x.drop (sz.scalarSize ⟨.Real, k⟩)) (fun h => nomatch h),
            if_pos hexr]
        rw [CastFortranToHost_unfold, if_pos hex, if_pos ⟨rfl, hm⟩,
          ha, hb]
        simp only [Option.some_bind, Option.map_some']
        rw [CastHostToFortran_unfold, if_pos hex, if_pos ⟨rfl, hm⟩]
        rw [List.take_left' (reinterpretTo_length _ _),
          List.drop_left' (reinterpretTo_length _ _)]
        rw [CastHostToFortran_nonComplex p sz ⟨.Real, k⟩
            (reinterpretTo (sz.hostSizeOf (HostType p ⟨.Real, k⟩))
              (x.take (sz.scalarSize ⟨.Real, k⟩))) (fun h => nomatch h),
          if_pos hexr]
        rw [CastHostToFortran_nonComplex p sz ⟨.Real, k⟩
            (reinterpretTo (sz.hostSizeOf (HostType p ⟨.Real, k⟩))
              (x.drop (sz.scalarSize ⟨.Real, k⟩))) (fun h => nomatch h),
          if_pos hexr]
        simp only [Option.some_bind, Option.map_some']
        rw [reinterpretTo_roundtrip hxt hsr,
          reinterpretTo_roundtrip hxd hsr, List.take_append_drop]
    · have hcC : (⟨c, k⟩ : FType).category ≠ .Complex := by
        simpa using hc
      have hok2 := hok
      unfold SizeOk at hok2
      rw [if_neg hcC, decide_eq_true_eq] at hok2
      rw [CastFortranToHost_nonComplex _ _ _ _ hcC, if_pos hex]
      simp only [Option.some_bind]
      rw [CastHostToFortran_nonComplex _ _ _ _ hcC, if_pos hex]
      rw [reinterpretTo_roundtrip hlen hok2]
  · intro h1 h2
    constructor
    · rw [CastFortranToHost_unfold, if_pos hex, if_pos ⟨h1, h2⟩]
    · rw [CastHostToFortran_unfold, if_pos hex, if_pos ⟨h1, h2⟩]

/-- A size assignment with a padded host real (6 bytes of storage for a
4-byte scalar pattern), so that the Complex(4) scalar (8 bytes) and the
host `std::complex` (12 bytes) disagree and the piecewise path of the
casts is exercised. -/
def DemoSizes : SizeModel :=
  ⟨fun t =>
    match t with
    | ⟨.Real, 4⟩ => 4
    | ⟨.Complex, 4⟩ => 8
    | _ => 1,
   fun h =>
    match h with
    | .float => 6
    | .complex .float => 12
    | _ => 1⟩

theorem claim_c1_cast_roundtrip_witness :
    (HostTypeExists DemoProfileX87 ⟨.Complex, 4⟩ = true ∧
      ([1, 2, 3, 4, 5, 6, 7, 8] : List Nat).length =
        DemoSizes.scalarSize ⟨.Complex, 4⟩ ∧
      SizeOk DemoProfileX87 DemoSizes ⟨.Complex, 4⟩ = true) ∧
    ((CastFortranToHost DemoProfileX87 DemoSizes ⟨.Complex, 4⟩
          [1, 2, 3, 4, 5, 6, 7, 8]).bind
        (CastHostToFortran DemoProfileX87 DemoSizes ⟨.Complex, 4⟩) =
      some [1, 2, 3, 4, 5, 6, 7, 8] ∧
    ((⟨.Complex, 4⟩ : FType).category = .Complex →
      DemoSizes.scalarSize ⟨.Complex, 4⟩ ≠
        DemoSizes.hostSizeOf (HostType DemoProfileX87 ⟨.Complex, 4⟩) →
      CastFortranToHost DemoProfileX87 DemoSizes ⟨.Complex, 4⟩
          [1, 2, 3, 4, 5, 6, 7, 8] =
        ((CastFortranToHost DemoProfileX87 DemoSizes ⟨.Real, 4⟩
            (([1, 2, 3, 4, 5, 6, 7, 8] : List Nat).take
              (DemoSizes.scalarSize ⟨.Real, 4⟩))).bind fun re =>
          (CastFortranToHost DemoProfileX87 DemoSizes ⟨.Real, 4⟩
              (([1, 2, 3, 4, 5, 6, 7, 8] : List Nat).drop
                (DemoSizes.scalarSize ⟨.Real, 4⟩))).map
            fun im => re ++ im) ∧
      CastHostToFortran DemoProfileX87 DemoSizes ⟨.Complex, 4⟩
          [20, 21, 22, 23, 24, 25, 30, 31, 32, 33, 34, 35] =
        ((CastHostToFortran DemoProfileX87 DemoSizes ⟨.Real, 4⟩
            (([20, 21, 22, 23, 24, 25, 30, 31, 32, 33, 34, 35] :
                List Nat).take
              (DemoSizes.hostSizeOf
                (HostType DemoProfileX87 ⟨.Real, 4⟩)))).bind
          fun re =>
            (CastHostToFortran DemoProfileX87 DemoSizes ⟨.Real, 4⟩
                (([20, 21, 22, 23, 24, 25, 30, 31, 32, 33, 34, 35] :
                    List Nat).drop
                  (DemoSizes.hostSizeOf
                    (HostType DemoProfileX87 ⟨.Real, 4⟩)))).map
              fun im => re ++ im))) :=
  ⟨⟨by decide, by decide, by decide⟩,
    claim_c1_cast_roundtrip DemoProfileX87 DemoSizes ⟨.Complex, 4⟩
      [1, 2, 3, 4, 5, 6, 7, 8]
      [20, 21, 22, 23, 24, 25, 30, 31, 32, 33, 34, 35]
      (by decide) (by decide) (by decide)⟩

/-- Claim C9: for a paired guard invocation — set-up followed by
check-and-restore — the host floating-point environment afterwards is
bit-identical to the environment immediately before set-up, and every
status flag raised in between is reported to the folding context. -/
theorem claim_c9_fp_environment_guard_roundtrip (s : FPEnvState)
    (ctx : FoldingContext) (requestedControl : Nat) (raised : FPFlags) :
    (CheckAndRestoreFloatingPointEnvironment
        (SetUpHostFloatingPointEnvironment requestedControl s).1 ctx
        ⟨(SetUpHostFloatingPointEnvironment requestedControl s).2.control,
          FPFlags.union
            (SetUpHostFloatingPointEnvironment requestedControl s).2.flags
            raised⟩).2 = s ∧
    (CheckAndRestoreFloatingPointEnvironment
        (SetUpHostFloatingPointEnvironment requestedControl s).1 ctx
        ⟨(SetUpHostFloatingPointEnvironment requestedControl s).2.control,
          FPFlags.union
            (SetUpHostFloatingPointEnvironment requestedControl s).2.flags
            raised⟩).1.flagsReported = raised := by
  cases raised
  constructor
  · rfl
  · simp [SetUpHostFloatingPointEnvironment,
      CheckAndRestoreFloatingPointEnvironment, FPFlags.union, FPFlags.clear]

end Fortran.evaluate.host
